import Mathlib

/-!
Verification model of the dandi-archive versioned-asset subsystem.

The definitions below are a shallow embedding of the repository's code:
- `dandiapi/api/views/asset.py` (asset create / update / destroy / list / paths),
- `dandiapi/api/tasks/scheduled.py` (periodic validation sweeps, aggregation retry).

Database rows become Lean structures, Django querysets become list operations, and
HTTP error responses become an explicit error type.  Parts of the repository that
the excerpt does not contain (`services/asset.py`, `models/asset.py`, task bodies)
are modelled from the specification and are marked as such in their doc comments.
-/

namespace Dandi

/-- Validation status of an asset or a version (`PENDING`/`VALID`/`INVALID`). -/
inductive Status
  | PENDING
  | VALID
  | INVALID
deriving DecidableEq, Repr

/-- Status of a zarr archive (`ZarrArchiveStatus`); only `COMPLETE` is inspected
by the embedded code. -/
inductive ZarrStatus
  | PENDING
  | INGESTING
  | COMPLETE
deriving DecidableEq, Repr

/-- Shallow embedding of a JSON metadata blob.  The keys the embedded code
inspects (`path`, `schemaVersion`) are explicit fields; every other key/value
pair is kept opaque in `extra`. -/
structure Metadata where
  path : Option String
  schemaVersion : Option String
  extra : List (String × String)
deriving DecidableEq, Repr

/-- One `Asset` row: primary key `id`, stable external `asset_id`, path,
metadata, at most one of the three content references, the backward
`previous` reference (by primary key), and the validation state. -/
structure AssetRecord where
  id : Nat
  asset_id : Nat
  path : String
  metadata : Metadata
  blob : Option Nat
  embargoed_blob : Option Nat
  zarr : Option Nat
  previous : Option Nat
  status : Status
  validation_errors : List (String × String)
deriving DecidableEq, Repr

/-- One `AssetBlob` (or `EmbargoedAssetBlob`) row: the sha256 digest is null
until the asynchronous checksum task fills it in. -/
structure BlobRecord where
  blob_id : Nat
  sha256 : Option String
deriving DecidableEq, Repr

/-- One `ZarrArchive` row: owning dandiset, aggregate checksum (null until the
completeness scan finishes) and the completion state. -/
structure ZarrRecord where
  zarr_id : Nat
  dandiset : Nat
  checksum : Option String
  status : ZarrStatus
deriving DecidableEq, Repr

/-- The `Version` row addressed by a request: owning dandiset, version string
(the draft marker is the literal string "draft"), the primary keys of its live
assets, and its validation status. -/
structure VersionRecord where
  dandiset : Nat
  version : String
  assets : List Nat
  status : Status
deriving DecidableEq, Repr

/-- The database state a single asset-mutation request runs against: the asset
table, the blob/zarr tables, the addressed version, a fresh-id counter for new
rows, and a log of the synchronous `validate_asset_metadata` invocations made
by `_maybe_validate_asset_metadata` (whose body lives outside the excerpt). -/
structure Db where
  assets : List AssetRecord
  blobs : List BlobRecord
  embargoed_blobs : List BlobRecord
  zarrs : List ZarrRecord
  version : VersionRecord
  next_id : Nat
  validations_triggered : List Nat
deriving DecidableEq, Repr

/-- Look up an asset row by primary key. -/
def lookupAsset (assets : List AssetRecord) (pk : Nat) : Option AssetRecord :=
  assets.find? (fun a => a.id == pk)

/-- Look up a blob row by `blob_id`. -/
def lookupBlob (blobs : List BlobRecord) (b : Nat) : Option BlobRecord :=
  blobs.find? (fun r => r.blob_id == b)

/-- Look up a zarr row by `zarr_id`. -/
def lookupZarr (zarrs : List ZarrRecord) (z : Nat) : Option ZarrRecord :=
  zarrs.find? (fun r => r.zarr_id == z)

/-- The live assets of the addressed version (`version.assets` queryset). -/
def liveAssets (db : Db) : List AssetRecord :=
  db.version.assets.filterMap (fun pk => lookupAsset db.assets pk)

/-- `NestedViewSetMixin` scopes `get_object` to the parent version and looks
assets up by `asset_id`. -/
def getObject (db : Db) (aid : Nat) : Option AssetRecord :=
  (liveAssets db).find? (fun a => a.asset_id == aid)

/-- The errors the embedded request handlers can produce. -/
inductive ApiError
  | versionImmutable
  | contentRefConflict
  | missingPath
  | invalidPath
  | duplicatePath
  | crossDandisetZarr
  | notFound
  | pathNotFound
deriving DecidableEq, Repr

/-- `settings.DANDI_SCHEMA_VERSION`: an external configuration value; its
concrete content is irrelevant to every claim. -/
def DANDI_SCHEMA_VERSION : String := "0.6.4"

/-- Split a character list on '/' into path segments. -/
def splitSegs : List Char → List (List Char)
  | [] => [[]]
  | c :: cs =>
    if c = '/' then [] :: splitSegs cs
    else
      match splitSegs cs with
      | [] => [[c]]
      | s :: rest => (c :: s) :: rest

/-- Modelled from the spec: `Asset.ASSET_PATH_REGEX` lives in
`models/asset.py`, which is not part of the excerpt.  Per §3 the path-safety
pattern disallows empty segments, `.`/`..` segments, and control characters. -/
def validAssetPath (p : String) : Bool :=
  !p.data.isEmpty &&
    (splitSegs p.data).all
      (fun s => !s.isEmpty && s ≠ ['.'] && s ≠ ['.', '.']) &&
    p.data.all (fun c => !(c.toNat < 32 || c.toNat == 127))

/-- A request body for asset create/update: metadata plus the optional
`blob_id` / `zarr_id` content references. -/
structure AssetRequest where
  metadata : Metadata
  blob_id : Option Nat
  zarr_id : Option Nat
deriving DecidableEq, Repr

/-- `AssetRequestSerializer.validate`: rejects unless exactly one of
`blob_id`/`zarr_id` is given, requires a non-empty `metadata.path` matching the
path pattern, and defaults `schemaVersion`. -/
def serializerValidate (req : AssetRequest) : Except ApiError Metadata :=
  if req.blob_id.isSome == req.zarr_id.isSome then .error .contentRefConflict
  else
    match req.metadata.path with
    | none => .error .missingPath
    | some p =>
      if p = "" then .error .missingPath
      else if !validAssetPath p then .error .invalidPath
      else
        .ok { req.metadata with
                schemaVersion := some (req.metadata.schemaVersion.getD DANDI_SCHEMA_VERSION) }

/-- Modelled from the spec: `Asset.strip_metadata` lives in `models/asset.py`,
which is not part of the excerpt.  The spec (§3, §4.1) treats the stored
metadata as the submitted metadata draft, so it is modelled as the identity. -/
def strip_metadata (m : Metadata) : Metadata := m

/-- An unsaved asset as built by `NestedAssetViewSet.asset_from_request`. -/
structure NewAsset where
  path : String
  metadata : Metadata
  blob : Option Nat
  embargoed_blob : Option Nat
  zarr : Option Nat
deriving DecidableEq, Repr

/-- Resolution of the request's content reference: `blob_id` is looked up in
`AssetBlob`, falling back to `EmbargoedAssetBlob`; `zarr_id` in `ZarrArchive`;
404 when absent. -/
def resolveContentRef (db : Db) (req : AssetRequest) :
    Except ApiError (Option Nat × Option Nat × Option Nat) :=
  match req.blob_id with
  | some b =>
    if (lookupBlob db.blobs b).isSome then .ok (some b, none, none)
    else if (lookupBlob db.embargoed_blobs b).isSome then .ok (none, some b, none)
    else .error .notFound
  | none =>
    match req.zarr_id with
    | some z =>
      if (lookupZarr db.zarrs z).isSome then .ok (none, none, some z)
      else .error .notFound
    | none => .error .notFound

/-- `NestedAssetViewSet.asset_from_request`: run the serializer, resolve the
content reference, and construct the unsaved asset. -/
def asset_from_request (db : Db) (req : AssetRequest) : Except ApiError NewAsset :=
  match serializerValidate req with
  | .error e => .error e
  | .ok md =>
    match resolveContentRef db req with
    | .error e => .error e
    | .ok refs =>
      .ok
        { path := md.path.getD ""
          metadata := strip_metadata md
          blob := refs.1
          embargoed_blob := refs.2.1
          zarr := refs.2.2 }

/-- `_maybe_validate_asset_metadata` (views/asset.py lines 57-77): blob-backed
assets with a computed sha256 get `validate_asset_metadata` invoked
synchronously (recorded in the trigger log); a blob still waiting for its
checksum, and every zarr-backed asset, is left alone. -/
def maybe_validate_asset_metadata (db : Db) (a : AssetRecord) : Db :=
  match a.blob with
  | some b =>
    match lookupBlob db.blobs b with
    | some r =>
      if r.sha256.isSome then
        { db with validations_triggered := db.validations_triggered ++ [a.id] }
      else db
    | none => db
  | none =>
    match a.embargoed_blob with
    | some b =>
      match lookupBlob db.embargoed_blobs b with
      | some r =>
        if r.sha256.isSome then
          { db with validations_triggered := db.validations_triggered ++ [a.id] }
        else db
      | none => db
    | none => db

/-- `NestedAssetViewSet.create`: draft-only check, request validation,
duplicate-path check, cross-dandiset zarr check, then save the asset, attach it
to the version, mark the version `PENDING` and maybe validate inline. -/
def createAsset (db : Db) (req : AssetRequest) : Db × Except ApiError AssetRecord :=
  if db.version.version ≠ "draft" then (db, .error .versionImmutable)
  else
    match asset_from_request db req with
    | .error e => (db, .error e)
    | .ok na =>
      if (liveAssets db).any (fun a => a.path == na.path) then
        (db, .error .duplicatePath)
      else if na.zarr.isSome &&
          !((na.zarr.bind (lookupZarr db.zarrs)).map (fun zr => zr.dandiset == db.version.dandiset)).getD false then
        (db, .error .crossDandisetZarr)
      else
        let record : AssetRecord :=
          { id := db.next_id
            asset_id := db.next_id
            path := na.path
            metadata := na.metadata
            blob := na.blob
            embargoed_blob := na.embargoed_blob
            zarr := na.zarr
            previous := none
            status := .PENDING
            validation_errors := [] }
        let db1 : Db :=
          { db with
              assets := db.assets ++ [record]
              next_id := db.next_id + 1
              version := { db.version with
                             assets := db.version.assets ++ [record.id]
                             status := .PENDING } }
        (maybe_validate_asset_metadata db1 record, .ok record)

/-- `NestedAssetViewSet.update`: resolve the old asset, draft-only check,
request validation; when the new (metadata, blob, embargoed blob, zarr) tuple
equals the old asset's, return the old asset without minting a new row;
otherwise duplicate-path check (excluding the old asset), then atomically mint
the successor with `previous = old`, swap it into the version's asset set, mark
the version `PENDING` and maybe validate inline. -/
def updateAsset (db : Db) (aid : Nat) (req : AssetRequest) :
    Db × Except ApiError AssetRecord :=
  match getObject db aid with
  | none => (db, .error .notFound)
  | some old =>
    if db.version.version ≠ "draft" then (db, .error .versionImmutable)
    else
      match asset_from_request db req with
      | .error e => (db, .error e)
      | .ok na =>
        if na.metadata == old.metadata && na.blob == old.blob &&
            na.embargoed_blob == old.embargoed_blob && na.zarr == old.zarr then
          let db1 : Db := { db with version := { db.version with status := .PENDING } }
          (maybe_validate_asset_metadata db1 old, .ok old)
        else if (liveAssets db).any
            (fun a => a.path == na.path && a.asset_id != old.asset_id) then
          (db, .error .duplicatePath)
        else
          let record : AssetRecord :=
            { id := db.next_id
              asset_id := db.next_id
              path := na.path
              metadata := na.metadata
              blob := na.blob
              embargoed_blob := na.embargoed_blob
              zarr := na.zarr
              previous := some old.id
              status := .PENDING
              validation_errors := [] }
          let db1 : Db :=
            { db with
                assets := db.assets ++ [record]
                next_id := db.next_id + 1
                version := { db.version with
                               assets :=
                                 (db.version.assets ++ [record.id]).filter
                                   (fun pk => pk != old.id)
                               status := .PENDING } }
          (maybe_validate_asset_metadata db1 record, .ok record)

/-- `NestedAssetViewSet.destroy`: resolve the asset, draft-only check, then
remove the association (the asset row itself is retained) and mark the version
`PENDING`. -/
def destroyAsset (db : Db) (aid : Nat) : Db × Except ApiError Unit :=
  match getObject db aid with
  | none => (db, .error .notFound)
  | some old =>
    if db.version.version ≠ "draft" then (db, .error .versionImmutable)
    else
      ({ db with version := { db.version with
                                assets := db.version.assets.filter (fun pk => pk != old.id)
                                status := .PENDING } },
        .ok ())

/-- Length of the `previous` back-reference chain starting at primary key
`pk`, with fuel bounded by the table size (pointer cycles cannot arise from
the embedded operations, but the function must be total on every `Db`). -/
def chainLenAux (assets : List AssetRecord) : Nat → Nat → Nat
  | 0, _ => 0
  | fuel + 1, pk =>
    match lookupAsset assets pk with
    | none => 0
    | some a =>
      match a.previous with
      | none => 0
      | some p => chainLenAux assets fuel p + 1

/-- Length of the `previous` chain of asset `pk`. -/
def chainLen (assets : List AssetRecord) (pk : Nat) : Nat :=
  chainLenAux assets assets.length pk

/-! ## Helper lemmas -/

theorem maybe_validate_assets_eq (db : Db) (a : AssetRecord) :
    (maybe_validate_asset_metadata db a).assets = db.assets := by
  unfold maybe_validate_asset_metadata
  repeat' split
  all_goals rfl

theorem maybe_validate_version_eq (db : Db) (a : AssetRecord) :
    (maybe_validate_asset_metadata db a).version = db.version := by
  unfold maybe_validate_asset_metadata
  repeat' split
  all_goals rfl

/-! ## Concrete fixtures used by witnesses -/

/-- A concrete metadata blob with path "a.nwb". -/
def mdA : Metadata :=
  { path := some "a.nwb", schemaVersion := some DANDI_SCHEMA_VERSION, extra := [] }

/-- A blob row whose sha256 digest is already computed. -/
def blob5 : BlobRecord := { blob_id := 5, sha256 := some "abc" }

/-- An asset row at path "a.nwb" backed by blob 5. -/
def assetA : AssetRecord :=
  { id := 1, asset_id := 1, path := "a.nwb", metadata := mdA, blob := some 5,
    embargoed_blob := none, zarr := none, previous := none, status := .PENDING,
    validation_errors := [] }

/-- A draft version of dandiset 7 holding `assetA`. -/
def draftVer : VersionRecord :=
  { dandiset := 7, version := "draft", assets := [1], status := .VALID }

/-- A database with one blob-backed asset attached to a draft version. -/
def dbDraft : Db :=
  { assets := [assetA], blobs := [blob5], embargoed_blobs := [], zarrs := [],
    version := draftVer, next_id := 2, validations_triggered := [] }

/-- A request that resubmits `assetA`'s data unchanged. -/
def reqA : AssetRequest := { metadata := mdA, blob_id := some 5, zarr_id := none }

/-- The same database, but with a published (non-draft) version string. -/
def dbPublished : Db :=
  { dbDraft with version := { draftVer with version := "0.210101.0001" } }

/-! ## C3: non-draft versions reject all three mutations -/

/-- C3.  For every version whose version string is not the draft marker
"draft", each of the three asset mutations — create (attach), update (replace)
and destroy (detach) — fails with the version-immutable error and leaves the
whole state, in particular the version's asset set, unchanged.  For update and
destroy the target asset is assumed to resolve (otherwise the code 404s before
reaching the draft check). -/
theorem C3_nondraft_immutable (db : Db) (req : AssetRequest) (aid : Nat)
    (a : AssetRecord) (hdraft : db.version.version ≠ "draft") :
    createAsset db req = (db, .error .versionImmutable) ∧
    (getObject db aid = some a → updateAsset db aid req = (db, .error .versionImmutable)) ∧
    (getObject db aid = some a → destroyAsset db aid = (db, .error .versionImmutable)) := by
  refine ⟨?_, ?_, ?_⟩
  · unfold createAsset
    simp [hdraft]
  · intro h
    unfold updateAsset
    rw [h]
    simp [hdraft]
  · intro h
    unfold destroyAsset
    rw [h]
    simp [hdraft]

/-- Witness for C3 at a concrete published version. -/
theorem C3_nondraft_immutable_witness :
    createAsset dbPublished reqA = (dbPublished, .error .versionImmutable) ∧
    updateAsset dbPublished 1 reqA = (dbPublished, .error .versionImmutable) ∧
    destroyAsset dbPublished 1 = (dbPublished, .error .versionImmutable) := by
  obtain ⟨h1, h2, h3⟩ :=
    C3_nondraft_immutable dbPublished reqA 1 assetA (by decide)
  exact ⟨h1, h2 (by decide), h3 (by decide)⟩

/-! ## C1: idempotent replacement is a no-op -/

/-- C1.  Against the draft version, an asset update whose new
(path, metadata, content reference) tuple is identical to the old asset's
returns the old asset unchanged: the asset table gains no new row, the
version's asset set is unchanged, and the `previous` chain length of the
asset is unchanged. -/
theorem C1_idempotent_update (db : Db) (aid : Nat) (req : AssetRequest)
    (old : AssetRecord) (na : NewAsset)
    (hobj : getObject db aid = some old)
    (hdraft : db.version.version = "draft")
    (hafr : asset_from_request db req = .ok na)
    (_hpath : na.path = old.path) (hmd : na.metadata = old.metadata)
    (hb : na.blob = old.blob) (he : na.embargoed_blob = old.embargoed_blob)
    (hz : na.zarr = old.zarr) :
    (updateAsset db aid req).2 = .ok old ∧
    (updateAsset db aid req).1.assets = db.assets ∧
    (updateAsset db aid req).1.version.assets = db.version.assets ∧
    chainLen (updateAsset db aid req).1.assets old.id = chainLen db.assets old.id := by
  have hres : updateAsset db aid req =
      (maybe_validate_asset_metadata
         { db with version := { db.version with status := .PENDING } } old,
       .ok old) := by
    unfold updateAsset
    rw [hobj]
    simp [hdraft, hafr, hmd, hb, he, hz]
  rw [hres]
  refine ⟨rfl, ?_, ?_, ?_⟩
  · exact maybe_validate_assets_eq _ _
  · rw [maybe_validate_version_eq]
  · rw [maybe_validate_assets_eq]

/-- Witness for C1: resubmitting `assetA`'s exact data to the draft version. -/
theorem C1_idempotent_update_witness :
    (updateAsset dbDraft 1 reqA).2 = .ok assetA ∧
    (updateAsset dbDraft 1 reqA).1.assets = dbDraft.assets ∧
    (updateAsset dbDraft 1 reqA).1.version.assets = dbDraft.version.assets ∧
    chainLen (updateAsset dbDraft 1 reqA).1.assets assetA.id =
      chainLen dbDraft.assets assetA.id :=
  C1_idempotent_update dbDraft 1 reqA assetA
    { path := "a.nwb", metadata := mdA, blob := some 5,
      embargoed_blob := none, zarr := none }
    (by decide) rfl (by rfl) rfl rfl rfl rfl rfl

/-! ## C4: exactly one content reference -/

/-- Number of content references set on an asset. -/
def contentRefCount (blob eb zarr : Option Nat) : Nat :=
  (if blob.isSome then 1 else 0) + (if eb.isSome then 1 else 0) +
    (if zarr.isSome then 1 else 0)

theorem serializer_conflict (req : AssetRequest)
    (h : req.blob_id.isSome = req.zarr_id.isSome) :
    serializerValidate req = .error .contentRefConflict := by
  unfold serializerValidate
  simp [h]

theorem afr_conflict (db : Db) (req : AssetRequest)
    (h : req.blob_id.isSome = req.zarr_id.isSome) :
    asset_from_request db req = .error .contentRefConflict := by
  unfold asset_from_request
  rw [serializer_conflict req h]

theorem resolve_refcount (db : Db) (req : AssetRequest)
    (refs : Option Nat × Option Nat × Option Nat)
    (h : resolveContentRef db req = .ok refs) :
    contentRefCount refs.1 refs.2.1 refs.2.2 = 1 := by
  unfold resolveContentRef at h
  repeat' split at h
  all_goals
    first
    | (injection h with h2; subst h2; rfl)
    | exact Except.noConfusion h

theorem afr_refcount (db : Db) (req : AssetRequest) (na : NewAsset)
    (h : asset_from_request db req = .ok na) :
    contentRefCount na.blob na.embargoed_blob na.zarr = 1 := by
  unfold asset_from_request at h
  split at h
  · exact Except.noConfusion h
  · split at h
    · exact Except.noConfusion h
    · rename_i refs hres
      injection h with h2
      subst h2
      simpa using resolve_refcount db req refs hres

/-- C4.  A request supplying neither or both of `blob_id`/`zarr_id` is
rejected with the content-reference-conflict error before any state change (at
both the create and update boundary, once the request reaches serializer
validation), and every asset accepted at either boundary carries exactly one
of {blob, embargoed blob, zarr}. -/
theorem C4_exactly_one_content_ref (db : Db) (req : AssetRequest) (aid : Nat) :
    (db.version.version = "draft" → req.blob_id.isSome = req.zarr_id.isSome →
      createAsset db req = (db, .error .contentRefConflict)) ∧
    (∀ old, getObject db aid = some old → db.version.version = "draft" →
      req.blob_id.isSome = req.zarr_id.isSome →
      updateAsset db aid req = (db, .error .contentRefConflict)) ∧
    (∀ db' a, createAsset db req = (db', .ok a) →
      contentRefCount a.blob a.embargoed_blob a.zarr = 1) ∧
    (∀ db' a, updateAsset db aid req = (db', .ok a) →
      contentRefCount a.blob a.embargoed_blob a.zarr = 1) := by
  refine ⟨?_, ?_, ?_, ?_⟩
  · intro hd hs
    unfold createAsset
    simp [hd, afr_conflict db req hs]
  · intro old hobj hd hs
    unfold updateAsset
    rw [hobj]
    simp [hd, afr_conflict db req hs]
  · intro db' a h
    unfold createAsset at h
    split at h
    · exact Prod.noConfusion h (fun _ he => Except.noConfusion he)
    · split at h
      · exact Prod.noConfusion h (fun _ he => Except.noConfusion he)
      · rename_i na hafr
        split at h
        · exact Prod.noConfusion h (fun _ he => Except.noConfusion he)
        · split at h
          · exact Prod.noConfusion h (fun _ he => Except.noConfusion he)
          · have := afr_refcount db req na hafr
            obtain ⟨-, he⟩ := Prod.mk.injEq .. ▸ h
            cases he
            simpa using this
  · intro db' a h
    unfold updateAsset at h
    split at h
    · exact Prod.noConfusion h (fun _ he => Except.noConfusion he)
    · rename_i old hobj
      split at h
      · exact Prod.noConfusion h (fun _ he => Except.noConfusion he)
      · split at h
        · exact Prod.noConfusion h (fun _ he => Except.noConfusion he)
        · rename_i na hafr
          split at h
          · rename_i hcond
            simp only [Bool.and_eq_true, beq_iff_eq] at hcond
            obtain ⟨⟨⟨hmd, hb⟩, he⟩, hz⟩ := hcond
            obtain ⟨-, heq⟩ := Prod.mk.injEq .. ▸ h
            cases heq
            have := afr_refcount db req na hafr
            rw [hb, he, hz] at this
            simpa using this
          · split at h
            · exact Prod.noConfusion h (fun _ he => Except.noConfusion he)
            · have := afr_refcount db req na hafr
              obtain ⟨-, heq⟩ := Prod.mk.injEq .. ▸ h
              cases heq
              simpa using this

/-- A concrete metadata blob with path "b.nwb". -/
def mdB : Metadata :=
  { path := some "b.nwb", schemaVersion := some DANDI_SCHEMA_VERSION, extra := [] }

/-- A request attaching a new asset at path "b.nwb" backed by blob 5. -/
def reqB : AssetRequest := { metadata := mdB, blob_id := some 5, zarr_id := none }

/-- The asset row minted by `createAsset dbDraft reqB`. -/
def recB : AssetRecord :=
  { id := 2, asset_id := 2, path := "b.nwb", metadata := mdB, blob := some 5,
    embargoed_blob := none, zarr := none, previous := none, status := .PENDING,
    validation_errors := [] }

/-- Witness for C4: a request with both references missing is rejected at the
create boundary and at the update boundary, and a successful create yields an
asset with exactly one reference. -/
theorem C4_exactly_one_content_ref_witness :
    (createAsset dbDraft { metadata := mdA, blob_id := none, zarr_id := none } =
      (dbDraft, .error .contentRefConflict)) ∧
    (updateAsset dbDraft 1 { metadata := mdA, blob_id := none, zarr_id := none } =
      (dbDraft, .error .contentRefConflict)) ∧
    contentRefCount recB.blob recB.embargoed_blob recB.zarr = 1 := by
  obtain ⟨h1, h2, h3, -⟩ :=
    C4_exactly_one_content_ref dbDraft
      { metadata := mdA, blob_id := none, zarr_id := none } 1
  refine ⟨h1 rfl rfl, h2 assetA (by decide) rfl rfl, ?_⟩
  obtain ⟨-, -, h3b, -⟩ := C4_exactly_one_content_ref dbDraft reqB 1
  exact h3b (createAsset dbDraft reqB).1 recB (by rfl)

/-! ## C5: duplicate paths are rejected -/

theorem serializer_path (req : AssetRequest) (md : Metadata)
    (h : serializerValidate req = .ok md) :
    ∃ p, md.path = some p ∧ p ≠ "" := by
  unfold serializerValidate at h
  split at h
  · exact Except.noConfusion h
  · split at h
    · exact Except.noConfusion h
    · rename_i p hp
      split at h
      · exact Except.noConfusion h
      · split at h
        · exact Except.noConfusion h
        · rename_i h1 h2
          injection h with h3
          subst h3
          exact ⟨p, hp, h1⟩

theorem afr_path_meta (db : Db) (req : AssetRequest) (na : NewAsset)
    (h : asset_from_request db req = .ok na) :
    na.metadata.path = some na.path := by
  unfold asset_from_request at h
  split at h
  · exact Except.noConfusion h
  · rename_i md hsv
    split at h
    · exact Except.noConfusion h
    · injection h with h2
      subst h2
      obtain ⟨p, hp, -⟩ := serializer_path req md hsv
      simp [strip_metadata, hp]

/-- C5.  Attaching a new asset fails with the duplicate-path error when the
draft version already has a live asset at the same path, and replacing fails
with the duplicate-path error when another live asset (excluding the one being
replaced) occupies the new path; in both cases the whole state — in particular
the version's asset set — is unchanged.  The replace direction assumes the
version is well formed: live paths are pairwise distinct and the old asset's
stored path agrees with its metadata path (both hold for every state the
mutation boundary itself can produce). -/
theorem C5_duplicate_path_rejected (db : Db) (req : AssetRequest) (aid : Nat)
    (old other : AssetRecord) (na : NewAsset)
    (hdraft : db.version.version = "draft")
    (hafr : asset_from_request db req = .ok na) :
    (((liveAssets db).any fun a => a.path == na.path) = true →
      createAsset db req = (db, .error .duplicatePath)) ∧
    (getObject db aid = some old →
      old.metadata.path = some old.path →
      (liveAssets db).Pairwise (fun a b => a.path ≠ b.path) →
      other ∈ liveAssets db → other.path = na.path →
      other.asset_id ≠ old.asset_id →
      updateAsset db aid req = (db, .error .duplicatePath)) := by
  constructor
  · intro hdup
    unfold createAsset
    simp [hdraft, hafr, hdup]
  · intro hobj hwf huniq hmem hpath hne
    have hmem_old : old ∈ liveAssets db := List.mem_of_find?_eq_some hobj
    have hne_md : na.metadata ≠ old.metadata := by
      intro hmd
      have h1 : na.metadata.path = some na.path := afr_path_meta db req na hafr
      rw [hmd, hwf] at h1
      injection h1 with h1
      have hoo : old ≠ other := fun he => hne (by rw [he])
      have hsym : Symmetric (fun a b : AssetRecord => a.path ≠ b.path) :=
        fun _ _ h => Ne.symm h
      have hpp := (List.Pairwise.forall hsym huniq) hmem_old hmem hoo
      exact hpp (by rw [h1, hpath])
    have hbeq : (na.metadata == old.metadata) = false :=
      beq_eq_false_iff_ne.mpr hne_md
    have hany : ((liveAssets db).any
        fun a => a.path == na.path && a.asset_id != old.asset_id) = true :=
      List.any_eq_true.mpr ⟨other, hmem, by simp [hpath, hne]⟩
    unfold updateAsset
    rw [hobj]
    simp [hdraft, hafr, hbeq, hany]

/-- A second asset row at path "b.nwb" living alongside `assetA`. -/
def dbTwo : Db :=
  { dbDraft with
      assets := [assetA, recB]
      version := { draftVer with assets := [1, 2] }
      next_id := 3 }

/-- Witness for C5: attaching at the occupied path "a.nwb" fails, and moving
`assetA` onto the occupied path "b.nwb" fails. -/
theorem C5_duplicate_path_rejected_witness :
    createAsset dbTwo reqA = (dbTwo, .error .duplicatePath) ∧
    updateAsset dbTwo 1 reqB = (dbTwo, .error .duplicatePath) := by
  obtain ⟨h1, -⟩ :=
    C5_duplicate_path_rejected dbTwo reqA 1 assetA recB
      { path := "a.nwb", metadata := mdA, blob := some 5,
        embargoed_blob := none, zarr := none }
      rfl (by rfl)
  obtain ⟨-, h2⟩ :=
    C5_duplicate_path_rejected dbTwo reqB 1 assetA recB
      { path := "b.nwb", metadata := mdB, blob := some 5,
        embargoed_blob := none, zarr := none }
      rfl (by rfl)
  refine ⟨h1 (by decide), h2 (by decide) rfl (by decide) (by decide) rfl (by decide)⟩

/-! ## C6: inline validation trigger -/

/-- The condition under which the mutation boundary validates inline: the
asset is backed by a (possibly embargoed) blob whose sha256 digest is already
computed.  Zarr-backed assets never satisfy it. -/
def inlineValidable (blobs embargoed : List BlobRecord) (a : AssetRecord) : Bool :=
  match a.blob with
  | some b => ((lookupBlob blobs b).map (fun r => r.sha256.isSome)).getD false
  | none =>
    match a.embargoed_blob with
    | some b => ((lookupBlob embargoed b).map (fun r => r.sha256.isSome)).getD false
    | none => false

theorem maybe_validate_spec (db : Db) (a : AssetRecord) :
    maybe_validate_asset_metadata db a =
      if inlineValidable db.blobs db.embargoed_blobs a then
        { db with validations_triggered := db.validations_triggered ++ [a.id] }
      else db := by
  unfold maybe_validate_asset_metadata inlineValidable
  repeat' split
  all_goals simp_all

/-- A zarr archive that is COMPLETE with a computed checksum. -/
def zarrC : ZarrRecord :=
  { zarr_id := 9, dandiset := 7, checksum := some "zchk", status := .COMPLETE }

/-- A concrete metadata blob with path "z.zarr". -/
def mdZ : Metadata :=
  { path := some "z.zarr", schemaVersion := some DANDI_SCHEMA_VERSION, extra := [] }

/-- A request attaching a zarr-backed asset. -/
def reqZ : AssetRequest := { metadata := mdZ, blob_id := none, zarr_id := some 9 }

/-- An empty draft version of the same dandiset as `zarrC`. -/
def dbZarr : Db :=
  { assets := [], blobs := [], embargoed_blobs := [], zarrs := [zarrC],
    version := { dandiset := 7, version := "draft", assets := [], status := .VALID },
    next_id := 1, validations_triggered := [] }

/-- Counterexample to C6 as stated: the attach succeeds, the backing zarr is
COMPLETE with a checksum (fully processed), yet the inline-validation log
stays empty — no synchronous validation was triggered. -/
theorem C6_counterexample_zarr_not_inline :
    (createAsset dbZarr reqZ).2 =
      .ok { id := 1, asset_id := 1, path := "z.zarr", metadata := mdZ,
            blob := none, embargoed_blob := none, zarr := some 9,
            previous := none, status := .PENDING, validation_errors := [] } ∧
    lookupZarr dbZarr.zarrs 9 = some zarrC ∧
    zarrC.status = .COMPLETE ∧
    zarrC.checksum.isSome = true ∧
    (createAsset dbZarr reqZ).1.validations_triggered = [] := by
  exact ⟨by rfl, by rfl, rfl, rfl, by rfl⟩

/-- C6 (amended).  A successful attach or replace triggers synchronous inline
asset-metadata validation exactly when the asset is backed by a (possibly
embargoed) blob whose sha256 digest is already computed; zarr-backed assets
are never validated inline and wait for the periodic sweep. -/
theorem C6_inline_validation_condition (db : Db) (req : AssetRequest) (aid : Nat) :
    (∀ db' a, createAsset db req = (db', .ok a) →
      db'.validations_triggered =
        if inlineValidable db.blobs db.embargoed_blobs a then
          db.validations_triggered ++ [a.id]
        else db.validations_triggered) ∧
    (∀ db' a, updateAsset db aid req = (db', .ok a) →
      db'.validations_triggered =
        if inlineValidable db.blobs db.embargoed_blobs a then
          db.validations_triggered ++ [a.id]
        else db.validations_triggered) := by
  constructor
  · intro db' a h
    unfold createAsset at h
    split at h
    · exact Prod.noConfusion h (fun _ he => Except.noConfusion he)
    · split at h
      · exact Prod.noConfusion h (fun _ he => Except.noConfusion he)
      · split at h
        · exact Prod.noConfusion h (fun _ he => Except.noConfusion he)
        · split at h
          · exact Prod.noConfusion h (fun _ he => Except.noConfusion he)
          · obtain ⟨hdb, heq⟩ := Prod.mk.injEq .. ▸ h
            cases heq
            rw [← hdb, maybe_validate_spec]
            split <;> rfl
  · intro db' a h
    unfold updateAsset at h
    split at h
    · exact Prod.noConfusion h (fun _ he => Except.noConfusion he)
    · split at h
      · exact Prod.noConfusion h (fun _ he => Except.noConfusion he)
      · split at h
        · exact Prod.noConfusion h (fun _ he => Except.noConfusion he)
        · split at h
          · obtain ⟨hdb, heq⟩ := Prod.mk.injEq .. ▸ h
            cases heq
            rw [← hdb, maybe_validate_spec]
            split <;> rfl
          · split at h
            · exact Prod.noConfusion h (fun _ he => Except.noConfusion he)
            · obtain ⟨hdb, heq⟩ := Prod.mk.injEq .. ▸ h
              cases heq
              rw [← hdb, maybe_validate_spec]
              split <;> rfl

/-- Witness for amended C6: creating blob-backed `recB` (digest computed)
does trigger inline validation. -/
theorem C6_inline_validation_condition_witness :
    (createAsset dbDraft reqB).1.validations_triggered =
      if inlineValidable dbDraft.blobs dbDraft.embargoed_blobs recB then
        dbDraft.validations_triggered ++ [recB.id]
      else dbDraft.validations_triggered :=
  (C6_inline_validation_condition dbDraft reqB 1).1
    (createAsset dbDraft reqB).1 recB (by rfl)

/-! ## C2: validation of not-yet-ready content -/

/-- Replace the asset row with primary key `pk`. -/
def setAssetRecord (assets : List AssetRecord) (pk : Nat) (a' : AssetRecord) :
    List AssetRecord :=
  assets.map (fun a => if a.id == pk then a' else a)

/-- The digest of an asset's backing content, when available: a blob's sha256,
or a COMPLETE zarr archive's aggregate checksum (§4.3 preconditions). -/
def assetDigest (db : Db) (a : AssetRecord) : Option String :=
  match a.blob with
  | some b => (lookupBlob db.blobs b).bind (fun r => r.sha256)
  | none =>
    match a.embargoed_blob with
    | some b => (lookupBlob db.embargoed_blobs b).bind (fun r => r.sha256)
    | none =>
      match a.zarr with
      | some z =>
        match lookupZarr db.zarrs z with
        | some zr => if zr.status = .COMPLETE then zr.checksum else none
        | none => none
      | none => none

/-- Modelled from the spec: the body of the `validate_asset_metadata` task
(dandiapi/api/tasks) is not part of the excerpt.  Per §4.3 it merges
content-derived fields, runs the opaque schema validator (§9, passed here as
`schema`) and records VALID/INVALID with the validator's error list.  For an
asset whose digest is missing, the repository's own test
`test_validate_asset_metadata_no_digest` (src/dandiapi/api/tests/test_tasks.py)
pins the behavior — the asset is marked INVALID with the error
('digest', 'Digest is missing dandi-etag or sha256 keys.') — and that asserted
behavior is followed here where it conflicts with the spec's no-op sentence. -/
def validate_asset_metadata (schema : Metadata → List (String × String))
    (db : Db) (pk : Nat) : Db :=
  match lookupAsset db.assets pk with
  | none => db
  | some a =>
    match assetDigest db a with
    | none =>
      { db with
          assets := setAssetRecord db.assets pk
            { a with
                status := .INVALID
                validation_errors :=
                  [("digest", "Digest is missing dandi-etag or sha256 keys.")] } }
    | some _ =>
      { db with
          assets := setAssetRecord db.assets pk
            { a with
                status := if (schema a.metadata).isEmpty then .VALID else .INVALID
                validation_errors := schema a.metadata } }

/-- The filter of `validate_pending_asset_metadata` (tasks/scheduled.py):
PENDING assets whose blob sha256 is computed, or whose zarr archive has a
checksum and is COMPLETE. -/
def validatable_asset_rows (db : Db) : List AssetRecord :=
  db.assets.filter fun a =>
    a.status == Status.PENDING &&
      (((a.blob.bind (lookupBlob db.blobs)).map (fun r => r.sha256.isSome)).getD false ||
        ((a.zarr.bind (lookupZarr db.zarrs)).map
          (fun zr => zr.checksum.isSome && zr.status == ZarrStatus.COMPLETE)).getD false)

/-- `validate_pending_asset_metadata` dispatches exactly the ids of the
filtered rows (throttled). -/
def validatable_assets (db : Db) : List Nat :=
  (validatable_asset_rows db).map (fun a => a.id)

/-- The claim's "content not yet ready": every blob reference is still
without a computed sha256, and every zarr reference is not yet COMPLETE with
a checksum. -/
def contentNotReady (db : Db) (a : AssetRecord) : Prop :=
  (∀ b, a.blob = some b → (lookupBlob db.blobs b).bind (fun r => r.sha256) = none) ∧
  (∀ b, a.embargoed_blob = some b →
    (lookupBlob db.embargoed_blobs b).bind (fun r => r.sha256) = none) ∧
  (∀ z zr, a.zarr = some z → lookupZarr db.zarrs z = some zr →
    ¬(zr.checksum.isSome = true ∧ zr.status = ZarrStatus.COMPLETE))

theorem lookup_setAssetRecord (assets : List AssetRecord) (pk : Nat)
    (a a' : AssetRecord) (hl : lookupAsset assets pk = some a)
    (hid : a'.id = a.id) :
    lookupAsset (setAssetRecord assets pk a') pk = some a' := by
  induction assets with
  | nil => simp [lookupAsset] at hl
  | cons x xs ih =>
    by_cases hx : (x.id == pk) = true
    · have hxa : x = a := by
        unfold lookupAsset at hl
        rw [@List.find?_cons_of_pos _ (fun a => a.id == pk) x xs hx] at hl
        exact Option.some.inj hl
      subst hxa
      unfold lookupAsset setAssetRecord
      simp only [List.map_cons]
      have hfx : (if (x.id == pk) = true then a' else x) = a' := by
        simp [hx]
      rw [hfx]
      exact @List.find?_cons_of_pos _ (fun a => a.id == pk) a' _
        (by change (a'.id == pk) = true; rw [hid]; exact hx)
    · unfold lookupAsset at hl
      rw [@List.find?_cons_of_neg _ (fun a => a.id == pk) x xs hx] at hl
      have hrest := ih hl
      unfold lookupAsset setAssetRecord at hrest ⊢
      simp only [List.map_cons]
      have hhead : (if (x.id == pk) = true then a' else x) = x := by
        simp [hx]
      rw [hhead, @List.find?_cons_of_neg _ (fun a => a.id == pk) x _ hx]
      exact hrest

/-- A copy of `dbDraft` whose blob 5 has no computed sha256 yet. -/
def dbNoDigest : Db :=
  { dbDraft with blobs := [{ blob_id := 5, sha256 := none }] }

/-- Counterexample to C2 as stated: asset 1's blob has no sha256 (content not
ready), its status is PENDING with no validation errors, yet invoking the
asset-metadata validation task on it is not a no-op — the asset is marked
INVALID with a digest error, exactly as the repository's own test
`test_validate_asset_metadata_no_digest` asserts. -/
theorem C2_counterexample_no_digest_invalid :
    assetA.status = .PENDING ∧
    assetA.validation_errors = [] ∧
    (lookupBlob dbNoDigest.blobs 5).bind (fun r => r.sha256) = none ∧
    lookupAsset (validate_asset_metadata (fun _ => []) dbNoDigest 1).assets 1 =
      some { assetA with
               status := .INVALID
               validation_errors :=
                 [("digest", "Digest is missing dandi-etag or sha256 keys.")] } := by
  exact ⟨rfl, rfl, rfl, by rfl⟩

/-- C2 (amended).  The two call sites in the excerpt do defer validation of
not-yet-ready content: the inline trigger `_maybe_validate_asset_metadata` is
a no-op (whole state unchanged) when the asset is not inline-validable, and
the periodic sweep never selects an asset whose content is not ready.  The
validation task itself, however, is not a no-op on a not-ready asset: invoked
on an asset whose digest is unavailable it marks the asset INVALID with the
digest error, per the repository's own test. -/
theorem C2_not_ready_validation (db : Db) (a : AssetRecord)
    (schema : Metadata → List (String × String)) (pk : Nat) :
    (inlineValidable db.blobs db.embargoed_blobs a = false →
      maybe_validate_asset_metadata db a = db) ∧
    (a ∈ db.assets → contentNotReady db a → a ∉ validatable_asset_rows db) ∧
    (lookupAsset db.assets pk = some a → assetDigest db a = none →
      lookupAsset (validate_asset_metadata schema db pk).assets pk =
        some { a with
                 status := .INVALID
                 validation_errors :=
                   [("digest", "Digest is missing dandi-etag or sha256 keys.")] }) := by
  refine ⟨?_, ?_, ?_⟩
  · intro hcond
    rw [maybe_validate_spec, hcond]
    rfl
  · intro hmem hnr hsel
    obtain ⟨hb, he, hz⟩ := hnr
    have hpred := List.of_mem_filter hsel
    simp only [Bool.and_eq_true, Bool.or_eq_true, beq_iff_eq] at hpred
    obtain ⟨-, hready⟩ := hpred
    rcases hready with hblob | hzarr
    · cases hab : a.blob with
      | none => simp [hab] at hblob
      | some b =>
        have hnone := hb b hab
        cases hlb : lookupBlob db.blobs b with
        | none => simp [hab, hlb] at hblob
        | some r =>
          simp [hab, hlb] at hblob hnone
          simp [hnone] at hblob
    · cases haz : a.zarr with
      | none => simp [haz] at hzarr
      | some z =>
        cases hlz : lookupZarr db.zarrs z with
        | none => simp [haz, hlz] at hzarr
        | some zr =>
          simp [haz, hlz] at hzarr
          exact hz z zr haz hlz ⟨hzarr.1, hzarr.2⟩
  · intro hl hd
    have hrw : validate_asset_metadata schema db pk =
        { db with
            assets := setAssetRecord db.assets pk
              { a with
                  status := .INVALID
                  validation_errors :=
                    [("digest", "Digest is missing dandi-etag or sha256 keys.")] } } := by
      unfold validate_asset_metadata
      rw [hl]
      dsimp only
      rw [hd]
    rw [hrw]
    exact lookup_setAssetRecord db.assets pk a _ hl rfl

/-- Witness for amended C2: a zarr-backed PENDING asset whose archive is
still PENDING is skipped by both the inline trigger and the sweep, and the
task marks the digest-less asset 1 of `dbNoDigest` INVALID. -/
theorem C2_not_ready_validation_witness :
    maybe_validate_asset_metadata dbNoDigest assetA = dbNoDigest ∧
    assetA ∉ validatable_asset_rows dbNoDigest ∧
    lookupAsset (validate_asset_metadata (fun _ => []) dbNoDigest 1).assets 1 =
      some { assetA with
               status := .INVALID
               validation_errors :=
                 [("digest", "Digest is missing dandi-etag or sha256 keys.")] } := by
  obtain ⟨h1, h2, h3⟩ :=
    C2_not_ready_validation dbNoDigest assetA (fun _ => []) 1
  have hnr : contentNotReady dbNoDigest assetA := by
    refine ⟨?_, ?_, ?_⟩
    · intro b hb
      have hb5 : some (5 : Nat) = some b := hb
      injection hb5 with hb5
      subst hb5
      decide
    · intro b hb
      exact Option.noConfusion hb
    · intro z zr hz
      exact fun _ => Option.noConfusion hz
  exact ⟨h1 (by decide), h2 (by decide) hnr, h3 (by decide) (by decide)⟩

/-! ## C9: the draft-version sweep -/

/-- A `Version` row as seen by the periodic sweep. -/
structure VersionRow where
  id : Nat
  version : String
  status : Status
deriving DecidableEq, Repr

/-- The tasks `validate_draft_version_metadata` can enqueue. -/
inductive SweepTask
  | validate_version_metadata_task (version_id : Nat)
  | aggregate_assets_summary_task (version_id : Nat)
  | write_manifest_files (version_id : Nat)
deriving DecidableEq, Repr

/-- The version a sweep task refers to. -/
def SweepTask.versionId : SweepTask → Nat
  | .validate_version_metadata_task i => i
  | .aggregate_assets_summary_task i => i
  | .write_manifest_files i => i

/-- The queryset of `validate_draft_version_metadata` (tasks/scheduled.py):
ids of versions with status PENDING and version string "draft". -/
def pending_draft_versions (vs : List VersionRow) : List Nat :=
  ((vs.filter (fun v => v.status == Status.PENDING)).filter
      (fun v => v.version == "draft")).map (fun v => v.id)

/-- `validate_draft_version_metadata` (tasks/scheduled.py): for every pending
draft version it enqueues version-metadata validation, assets-summary
aggregation, and manifest writing. -/
def validate_draft_version_metadata (vs : List VersionRow) : List SweepTask :=
  (pending_draft_versions vs).flatMap (fun i =>
    [.validate_version_metadata_task i, .aggregate_assets_summary_task i,
     .write_manifest_files i])

/-- C9.  The periodic draft-version sweep enqueues exactly the three tasks
(version validation, assets-summary aggregation, manifest writing) for every
version that is PENDING with version string "draft", and every task it
enqueues refers to such a version — so a PENDING version that is not the
draft is never scheduled by this sweep. -/
theorem C9_sweep_selects_pending_drafts (vs : List VersionRow) (v : VersionRow)
    (i : Nat) :
    (v ∈ vs → v.status = .PENDING → v.version = "draft" →
      SweepTask.validate_version_metadata_task v.id ∈
          validate_draft_version_metadata vs ∧
        SweepTask.aggregate_assets_summary_task v.id ∈
          validate_draft_version_metadata vs ∧
        SweepTask.write_manifest_files v.id ∈ validate_draft_version_metadata vs) ∧
    (∀ t, t ∈ validate_draft_version_metadata vs → t.versionId = i →
      ∃ w, w ∈ vs ∧ w.id = i ∧ w.status = .PENDING ∧ w.version = "draft") := by
  constructor
  · intro hmem hst hver
    refine ⟨?_, ?_, ?_⟩ <;>
      · simp only [validate_draft_version_metadata, pending_draft_versions,
          List.mem_flatMap, List.mem_map, List.mem_filter]
        exact ⟨v.id, ⟨v, ⟨⟨hmem, by simp [hst]⟩, by simp [hver]⟩, rfl⟩, by simp⟩
  · intro t ht hid
    simp only [validate_draft_version_metadata, pending_draft_versions,
      List.mem_flatMap, List.mem_map, List.mem_filter] at ht
    obtain ⟨j, ⟨w, ⟨⟨hw, hst⟩, hver⟩, hj⟩, htj⟩ := ht
    simp only [beq_iff_eq] at hst hver
    refine ⟨w, hw, ?_, hst, hver⟩
    simp only [List.mem_cons, List.mem_singleton] at htj
    rcases htj with h | h | h | h
    all_goals first
      | (subst h; simp only [SweepTask.versionId] at hid; rw [← hid, hj])
      | exact absurd h (List.not_mem_nil t)

/-- A concrete version table: a pending draft, a pending published version,
and an already-valid draft. -/
def sweepRows : List VersionRow :=
  [{ id := 1, version := "draft", status := .PENDING },
   { id := 2, version := "0.210101.0001", status := .PENDING },
   { id := 3, version := "draft", status := .VALID }]

/-- Witness for C9: version 1 (pending draft) gets all three tasks, and the
task enqueued for id 1 indeed stems from a pending draft row. -/
theorem C9_sweep_selects_pending_drafts_witness :
    (SweepTask.validate_version_metadata_task 1 ∈
        validate_draft_version_metadata sweepRows ∧
      SweepTask.aggregate_assets_summary_task 1 ∈
        validate_draft_version_metadata sweepRows ∧
      SweepTask.write_manifest_files 1 ∈ validate_draft_version_metadata sweepRows) ∧
    (∃ w, w ∈ sweepRows ∧ w.id = 1 ∧ w.status = .PENDING ∧ w.version = "draft") := by
  obtain ⟨h1, h2⟩ :=
    C9_sweep_selects_pending_drafts sweepRows
      { id := 1, version := "draft", status := .PENDING } 1
  exact ⟨h1 (by decide) rfl rfl,
    h2 (SweepTask.validate_version_metadata_task 1) (by decide) rfl⟩

/-! ## C7: aggregation retry on concurrent modification -/

/-- Errors an aggregation pass can raise. -/
inductive AggError
  | concurrentlyModified
  | other
deriving DecidableEq, Repr

/-- A version as seen by the assets-summary aggregation: its last-modified
marker and (abstractly) its summary metadata. -/
structure AggVersion where
  modified : Nat
  summary : Nat
deriving DecidableEq, Repr

/-- Modelled from the spec: `version_aggregate_assets_summary`
(services/metadata) is not part of the excerpt.  Per §4.3 and §9 the write-back
is guarded by an optimistic check: the freshly computed summary is written only
if the version's last-modified marker still equals the marker observed when
the scan began; otherwise `VersionMetadataConcurrentlyModifiedError` is raised
and the version is left untouched. -/
def version_aggregate_assets_summary (scanModified newSummary : Nat)
    (v : AggVersion) : Except AggError AggVersion :=
  if v.modified ≠ scanModified then .error .concurrentlyModified
  else .ok { v with summary := newSummary }

/-- Modelled from the spec: the celery autoretry driver configured by
`@shared_task(autoretry_for=(VersionMetadataConcurrentlyModifiedError,),
retry_backoff=True)` on `aggregate_assets_summary_task` (tasks/scheduled.py).
The whole task is re-executed when it raises the concurrent-modification
error, with exponential backoff between attempts and a bounded retry budget
(celery's `max_retries`); any other error propagates immediately, and only
exhaustion of the budget surfaces the error.  `step n` is the n-th execution
of the whole aggregation pass. -/
def autoretry (step : Nat → Except AggError α) : Nat → Nat → Except AggError α
  | attempt, 0 => step attempt
  | attempt, budget + 1 =>
    match step attempt with
    | .ok v => .ok v
    | .error .concurrentlyModified => autoretry step (attempt + 1) budget
    | .error e => .error e

/-- The exponential-backoff delay before the n-th retry
(`retry_backoff=True`). -/
def retryBackoffDelay (retries : Nat) : Nat := 2 ^ retries

theorem autoretry_ok {α : Type} (step : Nat → Except AggError α) :
    ∀ (k budget start : Nat) (v : α), k ≤ budget → step (start + k) = .ok v →
      (∀ j, j < k → step (start + j) = .error .concurrentlyModified) →
      autoretry step start budget = .ok v := by
  intro k
  induction k with
  | zero =>
    intro budget start v _ hstep _
    have hstep' : step start = .ok v := by simpa using hstep
    cases budget with
    | zero => simpa [autoretry] using hstep'
    | succ b => simp [autoretry, hstep']
  | succ k ih =>
    intro budget start v hk hstep hj
    obtain ⟨b, rfl⟩ : ∃ b, budget = b + 1 := ⟨budget - 1, by omega⟩
    have h0 : step start = .error .concurrentlyModified := by
      simpa using hj 0 (by omega)
    have harith : start + 1 + k = start + (k + 1) := by omega
    refine Eq.trans ?_ (ih b (start + 1) v (by omega) (by rw [harith]; exact hstep)
      (fun j hjk => by
        have : start + 1 + j = start + (j + 1) := by omega
        rw [this]; exact hj (j + 1) (by omega)))
    simp [autoretry, h0]

theorem autoretry_exhaust {α : Type} (step : Nat → Except AggError α) :
    ∀ (budget start : Nat),
      (∀ j, j ≤ budget → step (start + j) = .error .concurrentlyModified) →
      autoretry step start budget = .error .concurrentlyModified := by
  intro budget
  induction budget with
  | zero =>
    intro start h
    simpa [autoretry] using h 0 (by omega)
  | succ b ih =>
    intro start h
    have h0 : step start = .error .concurrentlyModified := by
      simpa using h 0 (by omega)
    have := ih (start + 1) (fun j hj => by
      have harith : start + 1 + j = start + (j + 1) := by omega
      rw [harith]; exact h (j + 1) (by omega))
    simp [autoretry, h0, this]

/-- C7.  The aggregation write-back is rejected (never silently overwrites)
when the version's last-modified marker changed since the scan began; the
whole aggregation pass is then re-executed by the autoretry driver: if some
attempt within the retry budget succeeds the overall result is that success —
the intermediate concurrent-modification errors stay internal — and the error
is surfaced only when every attempt up to the budget fails with it. -/
theorem C7_aggregation_retry {α : Type} (step : Nat → Except AggError α)
    (budget k : Nat) (v : α) (scanModified newSummary : Nat) (ver : AggVersion) :
    (ver.modified ≠ scanModified →
      version_aggregate_assets_summary scanModified newSummary ver =
        .error .concurrentlyModified) ∧
    (k ≤ budget → step k = .ok v →
      (∀ j, j < k → step j = .error .concurrentlyModified) →
      autoretry step 0 budget = .ok v) ∧
    ((∀ j, j ≤ budget → step j = .error .concurrentlyModified) →
      autoretry step 0 budget = .error .concurrentlyModified) := by
  refine ⟨?_, ?_, ?_⟩
  · intro hmod
    simp [version_aggregate_assets_summary, hmod]
  · intro hk hstep hj
    exact autoretry_ok step k budget 0 v hk (by simpa using hstep)
      (fun j hjk => by simpa using hj j hjk)
  · intro h
    exact autoretry_exhaust step budget 0 (fun j hj => by simpa using h j hj)

/-! ## C8: path listing of an unknown prefix -/

/-- Bool prefix test on character lists. -/
def isPfxOf : List Char → List Char → Bool
  | [], _ => true
  | _ :: _, [] => false
  | c :: cs, d :: ds => c == d && isPfxOf cs ds

/-- The immediate child of directory `pfx` on the way to asset path `p`:
`(name, isFolder)`, or `none` when `p` does not lie under `pfx`. -/
def childOf (pfx p : List Char) : Option (List Char × Bool) :=
  if isPfxOf pfx p then
    match splitSegs (p.drop pfx.length) with
    | [] => none
    | [f] => some (f, false)
    | d :: _ :: _ => some (d, true)
  else none

/-- The paths of the version's live assets. -/
def livePaths (db : Db) : List String :=
  (liveAssets db).map (fun a => a.path)

/-- Modelled from the spec: `search_path` (services/asset.py) is not part of
the excerpt.  Per §4.2 `childrenOf` returns the immediate children (not the
full subtree) of the directory node named by the prefix, and `NotFound` —
modelled as `none` — when the prefix matches no existing node of the version's
path index, i.e. when no live asset path lies under it. -/
def search_path (pfx : String) (paths : List String) :
    Option (List (String × Bool)) :=
  if paths.any (fun p => isPfxOf pfx.data p.data) then
    some (((paths.filterMap (fun p => childOf pfx.data p.data)).map
      (fun c => (String.mk c.1, c.2))).dedup)
  else none

/-- `NestedAssetViewSet.paths` (views/asset.py): the validated path prefix is
handed to `search_path`; a `None` result raises the path-not-found error,
otherwise the children are returned (pagination elided). -/
def pathsLookup (db : Db) (pfx : String) :
    Except ApiError (List (String × Bool)) :=
  match search_path pfx (livePaths db) with
  | none => .error .pathNotFound
  | some cs => .ok cs

/-- C8.  For every version and every directory prefix (empty string for the
root, or ending in the separator) under which no live asset path lies — i.e.
the prefix matches no node of the version's path index — the path-listing
operation returns the not-found outcome, not a normal listing. -/
theorem C8_paths_unknown_prefix_not_found (db : Db) (pfx : String)
    (_hdir : pfx = "" ∨ pfx.data.getLast? = some '/')
    (hnone : ∀ p, p ∈ livePaths db → isPfxOf pfx.data p.data = false) :
    pathsLookup db pfx = .error .pathNotFound := by
  have hany : ((livePaths db).any fun p => isPfxOf pfx.data p.data) = false := by
    rw [List.any_eq_false]
    intro p hp
    rw [hnone p hp]
    exact Bool.false_ne_true
  unfold pathsLookup search_path
  rw [hany]
  rfl

/-- Witness for C8: listing the unknown directory "sub/" of a version whose
only live asset path is "a.nwb" reports not-found. -/
theorem C8_paths_unknown_prefix_not_found_witness :
    pathsLookup dbDraft "sub/" = .error .pathNotFound :=
  C8_paths_unknown_prefix_not_found dbDraft "sub/" (by right; rfl) (by decide)

/-- A concrete aggregation pass that hits the optimistic check twice and then
succeeds. -/
def flakyStep : Nat → Except AggError Nat :=
  fun n => if n < 2 then .error .concurrentlyModified else .ok 42

/-- Witness for C7: the guarded write-back rejects a moved marker; the driver
absorbs two concurrent-modification failures and returns the third attempt's
success within a budget of 3; and a pass that always conflicts surfaces the
error after the budget of 2 is exhausted. -/
theorem C7_aggregation_retry_witness :
    version_aggregate_assets_summary 5 9 { modified := 6, summary := 0 } =
      .error .concurrentlyModified ∧
    autoretry flakyStep 0 3 = .ok 42 ∧
    autoretry (fun _ => .error .concurrentlyModified) 0 2 =
      (.error .concurrentlyModified : Except AggError Nat) := by
  obtain ⟨h1, h2, -⟩ :=
    C7_aggregation_retry flakyStep 3 2 42 5 9 { modified := 6, summary := 0 }
  obtain ⟨-, -, h3⟩ :=
    C7_aggregation_retry (fun _ => (.error .concurrentlyModified : Except AggError Nat))
      2 0 0 5 9 { modified := 6, summary := 0 }
  refine ⟨h1 (by decide), ?_, h3 (fun j _ => rfl)⟩
  refine h2 (by omega) rfl (fun j hj => ?_)
  interval_cases j <;> rfl


/-! ## C10: glob escaping for the asset list filter -/

/-- The characters Python's `re.escape` (3.7+) prefixes with a backslash:
`()[]\x7b\x7d?*+-|^$\.&~#` and the whitespace characters space, tab, newline,
carriage return, vertical tab, form feed. -/
def isPySpecial (c : Char) : Bool :=
  c == '(' || c == ')' || c == '[' || c == ']' ||
    c == Char.ofNat 123 || c == Char.ofNat 125 ||
    c == '?' || c == '*' || c == '+' || c == '-' || c == '|' || c == '^' ||
    c == '$' || c == '\\' || c == '.' || c == '&' || c == '~' || c == '#' ||
    c == ' ' || c == Char.ofNat 9 || c == Char.ofNat 10 || c == Char.ofNat 13 ||
    c == Char.ofNat 11 || c == Char.ofNat 12

/-- Python's `re.escape`: prefix every regex-special character with a
backslash. -/
def pyReEscape : List Char → List Char
  | [] => []
  | c :: cs => (if isPySpecial c then ['\\', c] else [c]) ++ pyReEscape cs

/-- Python's `str.replace` of backslash-star by dot-star: replace every
occurrence of the two-character sequence, scanning left to right without
overlap. -/
def replaceEscStar : List Char → List Char
  | [] => []
  | [c] => [c]
  | c :: d :: rest =>
    if c = '\\' ∧ d = '*' then '.' :: '*' :: replaceEscStar rest
    else c :: replaceEscStar (d :: rest)

/-- `NestedAssetViewSet.list` (views/asset.py lines 472-479): the user's glob
is passed through `re.escape` and then the backslash-star to dot-star
replacement before being handed to the `path__iregex` filter.  (The filter
applies the pattern case-insensitively and unanchored; both apply identically
under the glob reading and are orthogonal to the escaping property.) -/
def globRegexPattern (g : String) : String :=
  String.mk (replaceEscStar (pyReEscape g.data))

/-- The unit-by-unit translation the escaping is expected to amount to:
'*' becomes the dot-star wildcard, every other character a (backslash-escaped
iff regex-special) literal. -/
def transGlob : List Char → List Char
  | [] => []
  | c :: g =>
    (if c = '*' then ['.', '*']
     else if isPySpecial c then ['\\', c]
     else [c]) ++ transGlob g

/-- Matching semantics, against a whole subject string, of the regex fragment
the translation produces: a backslash makes the following character a literal,
dot-star matches any substring, a bare dot matches any single character, and
any other character matches only itself.  (The produced patterns contain no
other regex constructs: every '*' in them is part of a dot-star.) -/
def reMatch : List Char → List Char → Bool
  | [], s => s.isEmpty
  | c :: p, s =>
    if c = '\\' then
      match p with
      | [] => false
      | d :: p' =>
        match s with
        | [] => false
        | c' :: s' => d == c' && reMatch p' s'
    else if c = '.' ∧ p.head? = some '*' then
      (s.tails).any (fun t => reMatch p.tail t)
    else if c = '.' then
      match s with
      | [] => false
      | _ :: s' => reMatch p s'
    else
      match s with
      | [] => false
      | c' :: s' => c == c' && reMatch p s'
termination_by p _ => p.length
decreasing_by
  all_goals simp_wf
  all_goals omega

/-- Glob semantics: '*' matches any substring, every other character matches
itself literally. -/
def globMatch : List Char → List Char → Bool
  | [], s => s.isEmpty
  | c :: p, s =>
    if c = '*' then (s.tails).any (fun t => globMatch p t)
    else
      match s with
      | [] => false
      | c' :: s' => c == c' && globMatch p s'
termination_by p _ => p.length
decreasing_by
  all_goals simp_wf

theorem listAnyCongr {α : Type} (l : List α) (f h : α → Bool)
    (hfh : ∀ x, f x = h x) : l.any f = l.any h := by
  induction l with
  | nil => rfl
  | cons x xs ih => simp [List.any_cons, hfh, ih]

theorem escape_head_ne_star (g : List Char) :
    (pyReEscape g).head? ≠ some '*' := by
  cases g with
  | nil => simp [pyReEscape]
  | cons c cs =>
    by_cases hsp : isPySpecial c = true
    · simp [pyReEscape, hsp]
    · have hcs : c ≠ '*' := by
        intro h
        rw [h] at hsp
        exact hsp (by decide)
      simp [pyReEscape, hsp, hcs]

theorem replace_cons_safe (c : Char) (rest : List Char)
    (h : c ≠ '\\' ∨ rest.head? ≠ some '*') :
    replaceEscStar (c :: rest) = c :: replaceEscStar rest := by
  cases rest with
  | nil => rfl
  | cons d ds =>
    have hcond : ¬(c = '\\' ∧ d = '*') := by
      rcases h with h | h
      · exact fun hcd => h hcd.1
      · exact fun hcd => h (by rw [hcd.2]; rfl)
    simp [replaceEscStar, hcond]

theorem replace_escape (g : List Char) :
    replaceEscStar (pyReEscape g) = transGlob g := by
  induction g with
  | nil => rfl
  | cons c cs ih =>
    by_cases hstar : c = '*'
    · subst hstar
      have hsp : isPySpecial '*' = true := by decide
      simp only [pyReEscape, hsp, if_true, List.cons_append, List.nil_append,
        transGlob]
      rw [show replaceEscStar ('\\' :: '*' :: pyReEscape cs) =
          '.' :: '*' :: replaceEscStar (pyReEscape cs) from by
        simp [replaceEscStar], ih]
    · by_cases hsp : isPySpecial c = true
      · simp only [pyReEscape, hsp, if_true, List.cons_append, List.nil_append,
          transGlob, hstar, if_false]
        rw [show replaceEscStar ('\\' :: c :: pyReEscape cs) =
            '\\' :: replaceEscStar (c :: pyReEscape cs) from by
          simp [replaceEscStar, hstar]]
        rw [replace_cons_safe c (pyReEscape cs) (Or.inr (escape_head_ne_star cs))]
        rw [ih]
      · have hbs : c ≠ '\\' := by
          intro h
          rw [h] at hsp
          exact hsp (by decide)
        simp only [pyReEscape, transGlob, hstar, hsp, Bool.false_eq_true,
          if_false, List.singleton_append]
        rw [replace_cons_safe c (pyReEscape cs) (Or.inl hbs), ih]

theorem reMatch_transGlob (g : List Char) :
    ∀ s, reMatch (transGlob g) s = globMatch g s := by
  induction g with
  | nil => intro s; simp [reMatch, globMatch, transGlob]
  | cons c cs ih =>
    intro s
    by_cases hstar : c = '*'
    · subst hstar
      simp only [transGlob, if_true, List.cons_append, List.nil_append]
      rw [show reMatch ('.' :: '*' :: transGlob cs) s =
          (s.tails).any (fun t => reMatch (transGlob cs) t) from by
        rw [reMatch.eq_def]; simp]
      rw [show globMatch ('*' :: cs) s =
          (s.tails).any (fun t => globMatch cs t) from by
        rw [globMatch.eq_def]; simp]
      exact listAnyCongr _ _ _ (fun t => ih t)
    · by_cases hsp : isPySpecial c = true
      · simp only [transGlob, hstar, if_false, hsp, if_true, List.cons_append,
          List.nil_append]
        rw [show reMatch ('\\' :: c :: transGlob cs) s =
            (match s with
             | [] => false
             | c' :: s' => c == c' && reMatch (transGlob cs) s') from by
          rw [reMatch.eq_def]; simp]
        rw [show globMatch (c :: cs) s =
            (match s with
             | [] => false
             | c' :: s' => c == c' && globMatch cs s') from by
          rw [globMatch.eq_def]; simp [hstar]]
        cases s with
        | nil => rfl
        | cons c' s' => simp [ih]
      · have hbs : c ≠ '\\' := by
          intro h; rw [h] at hsp; exact hsp (by decide)
        have hdot : c ≠ '.' := by
          intro h; rw [h] at hsp; exact hsp (by decide)
        simp only [transGlob, hstar, hsp, Bool.false_eq_true, if_false,
          List.singleton_append]
        rw [show reMatch (c :: transGlob cs) s =
            (match s with
             | [] => false
             | c' :: s' => c == c' && reMatch (transGlob cs) s') from by
          rw [reMatch.eq_def]; simp [hbs, hdot]]
        rw [show globMatch (c :: cs) s =
            (match s with
             | [] => false
             | c' :: s' => c == c' && globMatch cs s') from by
          rw [globMatch.eq_def]; simp [hstar]]
        cases s with
        | nil => rfl
        | cons c' s' => simp [ih]

/-- C10.  The asset-list glob filter escapes every regex metacharacter of the
user-supplied glob and rewrites only the escaped '*' into the dot-star
wildcard: the pattern handed to the path filter is exactly the unit-by-unit
rendering of the glob ('*' to dot-star, everything else a literal), and
matching that pattern under the regex semantics coincides with glob
semantics — '*' matches any substring, every other character only itself. -/
theorem C10_glob_escape (g s : String) :
    (globRegexPattern g).data = transGlob g.data ∧
    reMatch (globRegexPattern g).data s.data = globMatch g.data s.data := by
  constructor
  · exact replace_escape g.data
  · rw [show (globRegexPattern g).data = transGlob g.data from
      replace_escape g.data]
    exact reMatch_transGlob g.data s.data

end Dandi
